import Mathlib

/-!
# Verification of the SGLang disaggregation benchmark tooling

Shallow embedding of `benchmark_parser.py` and `socket_wait.py`.
Strings are modelled as `List Char`; Python's regex searches are embedded
as explicit leftmost-match scanning functions specialised to the concrete
patterns appearing in the source.  Python floats produced by `float(...)`
on the decimal literals of the log are modelled as exact decimal values
(a mantissa/exponent pair); IEEE-754 rounding is below the abstraction
level of this development.
-/

set_option maxRecDepth 16384

deriving instance DecidableEq for Except

namespace SGLang

/-! ## Digit strings -/

/-- Decimal digit character for a value `< 10` (mirrors Python's digit output). -/
def digitChar : Nat → Char
  | 0 => '0' | 1 => '1' | 2 => '2' | 3 => '3' | 4 => '4'
  | 5 => '5' | 6 => '6' | 7 => '7' | 8 => '8' | 9 => '9'
  | _ => '*'

/-- Numeric value of a digit character. -/
def digitVal (c : Char) : Nat := c.toNat - 48

/-- Value of a digit string, most significant digit first
(the semantics of Python's `int` on a digit string). -/
def natFromDigits (l : List Char) : Nat :=
  l.foldl (fun a c => 10 * a + digitVal c) 0

/-- Fuelled decimal rendering of a natural number, most significant digit
first (the semantics of Python's `str`/`repr` on a nonnegative int). -/
def natToDigitsF : Nat → Nat → List Char
  | 0, _ => []
  | Nat.succ f, n =>
    if n < 10 then [digitChar n]
    else natToDigitsF f (n / 10) ++ [digitChar (n % 10)]

/-- Decimal digit string of a natural number. -/
def natToDigits (n : Nat) : List Char := natToDigitsF (n + 1) n

theorem natToDigitsF_fuel (f g n : Nat) (hf : n < f) (hg : n < g) :
    natToDigitsF f n = natToDigitsF g n := by
  induction n using Nat.strong_induction_on generalizing f g with
  | _ n ih =>
    match f, g with
    | Nat.succ f, Nat.succ g =>
      by_cases h : n < 10
      · simp [natToDigitsF, h]
      · have hd : n / 10 < n := Nat.div_lt_self (by omega) (by omega)
        simp only [natToDigitsF, h, if_false]
        rw [ih (n / 10) hd f g (by omega) (by omega)]

theorem natToDigits_eq (n : Nat) :
    natToDigits n =
      if n < 10 then [digitChar n]
      else natToDigits (n / 10) ++ [digitChar (n % 10)] := by
  by_cases h : n < 10
  · simp [natToDigits, natToDigitsF, h]
  · have hd : n / 10 < n := Nat.div_lt_self (by omega) (by omega)
    simp only [natToDigits, natToDigitsF, h, if_false]
    rw [natToDigitsF_fuel n (n / 10 + 1) (n / 10) hd (by omega)]
    simp only [natToDigitsF]

theorem digitVal_digitChar {k : Nat} (h : k < 10) :
    digitVal (digitChar k) = k := by
  interval_cases k <;> decide

theorem isDigit_digitChar {k : Nat} (h : k < 10) :
    (digitChar k).isDigit = true := by
  interval_cases k <;> decide

theorem natFromDigits_append (xs ys : List Char) :
    natFromDigits (xs ++ ys) =
      natFromDigits xs * 10 ^ ys.length + natFromDigits ys := by
  have key : ∀ (l : List Char) (a : Nat),
      l.foldl (fun a c => 10 * a + digitVal c) a =
        a * 10 ^ l.length + natFromDigits l := by
    intro l
    induction l with
    | nil => intro a; simp [natFromDigits]
    | cons c t ih =>
      intro a
      simp only [List.foldl_cons, List.length_cons, natFromDigits]
      rw [ih (10 * a + digitVal c), ih (10 * 0 + digitVal c)]
      ring
  simp only [natFromDigits, List.foldl_append]
  rw [key ys (List.foldl (fun a c => 10 * a + digitVal c) 0 xs)]
  rfl

theorem natFromDigits_natToDigits (n : Nat) :
    natFromDigits (natToDigits n) = n := by
  induction n using Nat.strong_induction_on with
  | _ n ih =>
    rw [natToDigits_eq]
    by_cases h : n < 10
    · simp [h, natFromDigits, digitVal_digitChar h]
    · have hd : n / 10 < n := Nat.div_lt_self (by omega) (by omega)
      simp only [h, if_false]
      rw [natFromDigits_append, ih (n / 10) hd]
      have : natFromDigits [digitChar (n % 10)] = n % 10 := by
        simp [natFromDigits, digitVal_digitChar (Nat.mod_lt n (by omega))]
      rw [this]
      simp only [List.length_singleton, pow_one]
      omega

theorem natToDigits_all_digit (n : Nat) :
    (natToDigits n).all Char.isDigit = true := by
  induction n using Nat.strong_induction_on with
  | _ n ih =>
    rw [natToDigits_eq]
    by_cases h : n < 10
    · simp [h, isDigit_digitChar h]
    · have hd : n / 10 < n := Nat.div_lt_self (by omega) (by omega)
      simp only [h, if_false, List.all_append, Bool.and_eq_true]
      exact ⟨ih (n / 10) hd, by
        simp [isDigit_digitChar (Nat.mod_lt n (show 0 < 10 by omega))]⟩

theorem natToDigits_ne_nil (n : Nat) : natToDigits n ≠ [] := by
  rw [natToDigits_eq]
  by_cases h : n < 10 <;> simp [h]

theorem natToDigits_length_le {n e : Nat} (he : 0 < e) (h : n < 10 ^ e) :
    (natToDigits n).length ≤ e := by
  induction e generalizing n with
  | zero => omega
  | succ e ih =>
    rw [natToDigits_eq]
    by_cases hn : n < 10
    · simp [hn]
    · have hd : n / 10 < 10 ^ e := by
        rw [Nat.div_lt_iff_lt_mul (by omega : (0:Nat) < 10)]
        calc n < 10 ^ (e + 1) := h
          _ = 10 ^ e * 10 := by rw [pow_succ]
      have he' : 0 < e := by
        by_contra hc
        have : e = 0 := by omega
        subst this
        simp at hd
        omega
      simp only [hn, if_false, List.length_append, List.length_singleton]
      have := ih he' hd
      omega

/-! ## Exact decimal values

`Dec` models the value produced by Python's `float(...)` on the decimal
literals occurring in benchmark logs: a mantissa and a power-of-ten
exponent, kept in normal form (no trailing decimal zeros). -/

structure Dec where
  mant : Nat
  exp : Nat
deriving DecidableEq, Repr

/-- Remove trailing decimal zeros: `(1500, 2)` (value `15.00`) becomes
`(15, 0)` (value `15`). -/
def stripZeros : Nat → Nat → Nat × Nat
  | m, 0 => (m, 0)
  | m, e + 1 => if m % 10 = 0 then stripZeros (m / 10) e else (m, e + 1)

/-- Normal-form decimal from a mantissa/exponent pair. -/
def mkDec (m e : Nat) : Dec :=
  ⟨(stripZeros m e).1, (stripZeros m e).2⟩

/-- A `Dec` is in normal form when it has no trailing decimal zero. -/
def Dec.Normal (d : Dec) : Prop := d.exp = 0 ∨ d.mant % 10 ≠ 0

instance (d : Dec) : Decidable d.Normal := by
  unfold Dec.Normal; infer_instance

/-- Rational value of a decimal. -/
def Dec.toQ (d : Dec) : ℚ := (d.mant : ℚ) / 10 ^ d.exp

theorem stripZeros_zero (m : Nat) : stripZeros m 0 = (m, 0) := rfl

theorem stripZeros_succ_pos {m : Nat} (e : Nat) (h : m % 10 = 0) :
    stripZeros m (e + 1) = stripZeros (m / 10) e := by
  simp only [stripZeros, h, if_pos]

theorem stripZeros_succ_neg {m : Nat} (e : Nat) (h : m % 10 ≠ 0) :
    stripZeros m (e + 1) = (m, e + 1) := by
  simp [stripZeros, h]

theorem mkDec_normal (m e : Nat) : (mkDec m e).Normal := by
  induction e generalizing m with
  | zero => simp [mkDec, stripZeros_zero, Dec.Normal]
  | succ e ih =>
    by_cases h : m % 10 = 0
    · simpa [mkDec, Dec.Normal, stripZeros_succ_pos e h] using ih (m / 10)
    · simp [mkDec, Dec.Normal, stripZeros_succ_neg e h, h]

theorem mkDec_of_normal {d : Dec} (h : d.Normal) : mkDec d.mant d.exp = d := by
  rcases d with ⟨m, e⟩
  rcases h with h | h
  · simp only at h
    subst h
    simp [mkDec, stripZeros_zero]
  · cases e with
    | zero => simp [mkDec, stripZeros_zero]
    | succ e =>
      simp only at h
      simp [mkDec, stripZeros_succ_neg e h]

theorem mkDec_toQ (m e : Nat) : (mkDec m e).toQ = (m : ℚ) / 10 ^ e := by
  induction e generalizing m with
  | zero => simp [mkDec, stripZeros_zero, Dec.toQ]
  | succ e ih =>
    by_cases h : m % 10 = 0
    · have hdvd : 10 ∣ m := Nat.dvd_of_mod_eq_zero h
      have h2 : 10 * (m / 10) = m := Nat.mul_div_cancel' hdvd
      have hm : (m : ℚ) = ((m / 10 : Nat) : ℚ) * 10 := by
        have hcast : ((10 * (m / 10) : Nat) : ℚ) = (m : ℚ) := by
          exact_mod_cast congrArg (fun k : Nat => (k : ℚ)) h2
        rw [← hcast]
        push_cast
        ring
      have hmk : mkDec m (e + 1) = mkDec (m / 10) e := by
        simp [mkDec, stripZeros_succ_pos e h]
      rw [hmk, ih (m / 10), hm, pow_succ,
        mul_div_mul_right _ _ (by norm_num : (10:ℚ) ≠ 0)]
    · simp [mkDec, stripZeros_succ_neg e h, Dec.toQ]

/-! ## Python numeric conversions

`int(s)` and `float(s)` restricted to the character classes that the
benchmark regex captures can produce (digits, commas, dots), after the
source's `.replace(',', '')` comma stripping. -/

/-- Strip thousands commas, as in `m.group(1).replace(',', '')`. -/
def stripCommas (l : List Char) : List Char := l.filter (fun c => c ≠ ',')

/-- Python `int(s)` on a comma-stripped capture of `[\d,]+`: succeeds iff at
least one digit remains. -/
def intOfCap (cap : List Char) : Option Nat :=
  let ds := stripCommas cap
  if ds.isEmpty then none else some (natFromDigits ds)

/-- Split a character list at its first `'.'`: returns the characters before
it, and — when a dot exists — the characters after it. -/
def splitAtDot : List Char → List Char × Option (List Char)
  | [] => ([], none)
  | c :: t =>
    if c = '.' then ([], some t)
    else
      match splitAtDot t with
      | (a, r) => (c :: a, r)

/-- Python `float(s)` on a comma-stripped capture of `[\d,\.]+` (digits and
dots): at most one dot and at least one digit, yielding an exact decimal. -/
def floatOfCap (cap : List Char) : Option Dec :=
  match splitAtDot (stripCommas cap) with
  | (a, none) => if a.isEmpty then none else some ⟨natFromDigits a, 0⟩
  | (a, some b) =>
    if b.count '.' = 0 then
      if a.isEmpty ∧ b.isEmpty then none
      else some (mkDec (natFromDigits (a ++ b)) b.length)
    else none

/-- The mathematical value of a decimal literal given as integer digits and
fractional digits — the "exact decimal value written in the source text". -/
def litValQ (intPart fracPart : List Char) : ℚ :=
  (natFromDigits intPart : ℚ) + (natFromDigits fracPart : ℚ) / 10 ^ fracPart.length

theorem litValQ_nil (a : List Char) : litValQ a [] = (natFromDigits a : ℚ) := by
  simp [litValQ, natFromDigits]

/-- A successfully converted float value is the exact decimal value of the
comma-stripped capture (integer digits before the dot, fraction after it). -/
theorem floatOfCap_exact {cap : List Char} {d : Dec} (h : floatOfCap cap = some d) :
    d.toQ = litValQ (splitAtDot (stripCommas cap)).1
      ((splitAtDot (stripCommas cap)).2.getD []) := by
  unfold floatOfCap at h
  cases hs : splitAtDot (stripCommas cap) with
  | mk a r =>
    rw [hs] at h
    cases r with
    | none =>
      by_cases he : a.isEmpty
      · simp [he] at h
      · simp [he] at h
        subst h
        simp [Dec.toQ, litValQ_nil]
    | some b =>
      by_cases hc : b.count '.' = 0
      · by_cases hab : a.isEmpty ∧ b.isEmpty
        · simp [hc, hab] at h
        · simp [hc, hab] at h
          obtain ⟨-, h⟩ := h
          subst h
          rw [mkDec_toQ, natFromDigits_append]
          simp only [Option.getD_some, litValQ]
          push_cast
          rw [add_div]
          congr 1
          rw [mul_div_assoc, div_self (by positivity)]
          ring
      · simp [hc] at h

/-! ## Pattern matching over character lists

Embeddings of the concrete `re` patterns used by `parse_benchmark_log`.
Every pattern in the source is a sequence of literals, `\s+` gaps and
greedy character-class captures whose classes are disjoint from what
follows, so greedy maximal-munch matching coincides with Python's
backtracking semantics. -/

/-- Python's `\s` on the ASCII range. -/
def pyIsSpace (c : Char) : Bool :=
  c == ' ' || c == '\t' || c == '\n' || c == '\r' || c == '\x0b' || c == '\x0c'

/-- Consume an exact literal, returning the remaining input. -/
def takeLit : List Char → List Char → Option (List Char)
  | [], s => some s
  | _ :: _, [] => none
  | c :: t, x :: xs => if x = c then takeLit t xs else none

/-- Consume a maximal nonempty run of characters in class `p`
(a greedy `p+`), returning the run and the remaining input. -/
def take1Run (p : Char → Bool) (s : List Char) : Option (List Char × List Char) :=
  match s.takeWhile p with
  | [] => none
  | r => some (r, s.dropWhile p)

/-- Consume `\s+`. -/
def ws1 (s : List Char) : Option (List Char) :=
  (take1Run pyIsSpace s).map Prod.snd

/-- Leftmost search: try matcher `m` at every position, as `re.search` does. -/
def searchWith (m : List Char → Option α) : List Char → Option α
  | [] => m []
  | c :: t => (m (c :: t)) <|> searchWith m t

theorem takeLit_length : ∀ (pat s r : List Char),
    takeLit pat s = some r → r.length + pat.length = s.length := by
  intro pat
  induction pat with
  | nil =>
    intro s r h
    simp [takeLit] at h
    simp [h]
  | cons c t ih =>
    intro s r h
    cases s with
    | nil => simp [takeLit] at h
    | cons x xs =>
      by_cases hx : x = c
      · simp only [takeLit, hx, if_pos rfl] at h
        have := ih xs r h
        simp [List.length_cons]
        omega
      · simp [takeLit, hx] at h

/-- Fuelled split on the leftmost non-overlapping occurrences of a literal
separator (the semantics of `re.split` on a literal pattern). -/
def splitLitF (pat : List Char) : Nat → List Char → List (List Char)
  | _, [] => [[]]
  | 0, s => [s]
  | Nat.succ f, c :: t =>
    match takeLit pat (c :: t) with
    | some rest => [] :: splitLitF pat f rest
    | none =>
      match splitLitF pat f t with
      | [] => [[c]]
      | h :: r => (c :: h) :: r

/-- `re.split` on a literal pattern. -/
def splitLit (pat s : List Char) : List (List Char) := splitLitF pat s.length s

/-- Containment of a literal substring (Python's `in` on strings). -/
def hasSub (pat s : List Char) : Bool :=
  (searchWith (takeLit pat) s).isSome

/-! ## The concrete patterns of `parse_benchmark_log` -/

/-- Capture of the run-header pattern
`prompts\s+isl\s+(\d+)\s+osl\s+(\d+)\s+con\s+(\d+)\s+model\s+([^\s]+)\s+xP=(\d+)\s+yD=(\d+)`. -/
structure HeaderGroups where
  isl : List Char
  osl : List Char
  con : List Char
  model : List Char
  xp : List Char
  yd : List Char
deriving DecidableEq, Repr

def clsDigit (c : Char) : Bool := c.isDigit
def clsDigitComma (c : Char) : Bool := c.isDigit || c == ','
def clsDigitDot (c : Char) : Bool := c.isDigit || c == '.'
def clsDigitCommaDot (c : Char) : Bool := c.isDigit || c == ',' || c == '.'
def clsNonSpace (c : Char) : Bool := !(pyIsSpace c)

/-- `\s+lit\s+(cls+)`: whitespace gap, a literal, another gap, then a greedy
class capture; returns the capture and the rest. -/
def hdrGap (lit : List Char) (cls : Char → Bool) (s : List Char) :
    Option (List Char × List Char) :=
  ((ws1 s).bind (takeLit lit)).bind fun s => (ws1 s).bind (take1Run cls)

/-- `\s+lit(\d+)`: whitespace gap, a literal such as `xP=`, then the digit
capture with no gap in between; returns the capture and the rest. -/
def hdrEq (lit : List Char) (s : List Char) : Option (List Char × List Char) :=
  ((ws1 s).bind (takeLit lit)).bind (take1Run clsDigit)

/-- Match the run-header pattern at the current position. -/
def headerAt (s : List Char) : Option HeaderGroups :=
  (takeLit "prompts".data s).bind fun s =>
  (hdrGap "isl".data clsDigit s).bind fun p1 =>
  (hdrGap "osl".data clsDigit p1.2).bind fun p2 =>
  (hdrGap "con".data clsDigit p2.2).bind fun p3 =>
  (hdrGap "model".data clsNonSpace p3.2).bind fun p4 =>
  (hdrEq "xP=".data p4.2).bind fun p5 =>
  (hdrEq "yD=".data p5.2).map fun p6 =>
  ⟨p1.1, p2.1, p3.1, p4.1, p5.1, p6.1⟩

/-- `re.search` of the run-header pattern. -/
def searchHeader (s : List Char) : Option HeaderGroups := searchWith headerAt s

/-- A metric-line pattern: a literal label, then `\s+`, then a greedy
character-class capture. -/
structure FieldPat where
  label : List Char
  cls : Char → Bool

/-- Match a metric-line pattern at the current position, returning the capture. -/
def fieldAt (fp : FieldPat) (s : List Char) : Option (List Char) :=
  (takeLit fp.label s).bind fun s =>
  (ws1 s).bind fun s =>
  (take1Run fp.cls s).map Prod.fst

/-- `re.search` of a metric-line pattern. -/
def searchCap (fp : FieldPat) (s : List Char) : Option (List Char) :=
  searchWith (fieldAt fp) s

/-- `Prompts per group:\s+(\d+)` -/
def pgPat : FieldPat := ⟨"Prompts per group:".data, clsDigit⟩
/-- `Total prompts:\s+(\d+)` -/
def tpPat : FieldPat := ⟨"Total prompts:".data, clsDigit⟩
/-- `Total input tokens:\s+([\d,]+)` -/
def titPat : FieldPat := ⟨"Total input tokens:".data, clsDigitComma⟩
/-- `Total output tokens:\s+([\d,]+)` -/
def totPat : FieldPat := ⟨"Total output tokens:".data, clsDigitComma⟩
/-- `Successful requests:\s+([\d,]+)` -/
def srPat : FieldPat := ⟨"Successful requests:".data, clsDigitComma⟩
/-- `Benchmark duration \(s\):\s+([\d\.]+)` -/
def durPat : FieldPat := ⟨"Benchmark duration (s):".data, clsDigitDot⟩
/-- `Request throughput \(req/s\):\s+([\d\.]+)` -/
def rtPat : FieldPat := ⟨"Request throughput (req/s):".data, clsDigitDot⟩
/-- `Input token throughput \(tok/s\):\s+([\d,\.]+)` -/
def ittPat : FieldPat := ⟨"Input token throughput (tok/s):".data, clsDigitCommaDot⟩
/-- `Output token throughput \(tok/s\):\s+([\d,\.]+)` -/
def ottPat : FieldPat := ⟨"Output token throughput (tok/s):".data, clsDigitCommaDot⟩
/-- `Total token throughput \(tok/s\):\s+([\d,\.]+)` -/
def tttPat : FieldPat := ⟨"Total token throughput (tok/s):".data, clsDigitCommaDot⟩
/-- `Mean E2E Latency \(ms\):\s+([\d,\.]+)` -/
def e2ePat : FieldPat := ⟨"Mean E2E Latency (ms):".data, clsDigitCommaDot⟩
/-- `Mean TTFT \(ms\):\s+([\d,\.]+)` -/
def ttftPat : FieldPat := ⟨"Mean TTFT (ms):".data, clsDigitCommaDot⟩
/-- `Mean ITL \(ms\):\s+([\d,\.]+)` -/
def itlPat : FieldPat := ⟨"Mean ITL (ms):".data, clsDigitCommaDot⟩

/-- The results-block marker line searched with Python's `in`. -/
def markerLit : List Char :=
  "============ Serving Benchmark Result ============".data

/-- The `[RUNNING]` separator of `re.split`. -/
def runningLit : List Char := "[RUNNING]".data

/-! ## `parse_benchmark_log` -/

/-- One result record, with exactly the keys of the dict appended to
`results` in `parse_benchmark_log`. -/
structure BenchmarkRun where
  Model : String
  xP_yD : String
  ISL : Nat
  OSL : Nat
  Concurrency : Nat
  Prompts_Group : Option Nat
  Total_Prompts : Option Nat
  Total_Input_Tokens : Option Nat
  Total_Output_Tokens : Option Nat
  Request_Throughput_req_s : Option Dec
  Input_Token_Throughput_tok_s : Option Dec
  Output_Token_Throughput_tok_s : Option Dec
  Total_Token_Throughput_tok_s : Option Dec
  Mean_E2E_Latency_ms : Option Dec
  Mean_TTFT_ms : Option Dec
  Mean_ITL_ms : Option Dec
deriving DecidableEq, Repr

/-- Search an all-digit capture and convert with `int(...)` (cannot fail). -/
def extractNat (fp : FieldPat) (s : List Char) : Option Nat :=
  (searchCap fp s).map natFromDigits

/-- Search a `[\d,]+` capture and convert with
`int(m.group(1).replace(',', ''))`. -/
def extractIntC (fp : FieldPat) (s : List Char) : Option Nat :=
  (searchCap fp s).bind intOfCap

/-- The `extract` closure of the result block: search and convert with
`float(m.group(1).replace(',', ''))`, `None` when the pattern is absent. -/
def extract (fp : FieldPat) (s : List Char) : Option Dec :=
  (searchCap fp s).bind floatOfCap

/-- `True` when converting this int field cannot raise: either the pattern
is absent or its capture still has a digit after comma stripping. -/
def checkInt (fp : FieldPat) (s : List Char) : Bool :=
  match searchCap fp s with
  | none => true
  | some cap => (intOfCap cap).isSome

/-- `True` when converting this float field cannot raise. -/
def checkFloat (fp : FieldPat) (s : List Char) : Bool :=
  match searchCap fp s with
  | none => true
  | some cap => (floatOfCap cap).isSome

/-- All dataset-statistics conversions succeed (the two `int` conversions;
the two `(\d+)` fields cannot fail). -/
def intChecksOk (s : List Char) : Bool :=
  checkInt titPat s && checkInt totPat s

/-- All nine result-block `float` conversions succeed (including
`Successful requests` and `Benchmark duration`, which are extracted and
discarded by the source). -/
def floatChecksOk (s : List Char) : Bool :=
  checkFloat srPat s && checkFloat durPat s && checkFloat rtPat s &&
  checkFloat ittPat s && checkFloat ottPat s && checkFloat tttPat s &&
  checkFloat e2ePat s && checkFloat ttftPat s && checkFloat itlPat s

/-- The segment contains the results-block marker line. -/
def hasMarker (s : List Char) : Bool := hasSub markerLit s

/-- Python `str` of a nonnegative int. -/
def natStr (n : Nat) : String := String.mk (natToDigits n)

/-- The record built for a segment whose header matched and whose numeric
conversions all succeed. -/
def mkRun (h : HeaderGroups) (s : List Char) : BenchmarkRun where
  Model := String.mk h.model
  xP_yD := natStr (natFromDigits h.xp) ++ "p" ++ natStr (natFromDigits h.yd) ++ "d"
  ISL := natFromDigits h.isl
  OSL := natFromDigits h.osl
  Concurrency := natFromDigits h.con
  Prompts_Group := extractNat pgPat s
  Total_Prompts := extractNat tpPat s
  Total_Input_Tokens := extractIntC titPat s
  Total_Output_Tokens := extractIntC totPat s
  Request_Throughput_req_s := extract rtPat s
  Input_Token_Throughput_tok_s := extract ittPat s
  Output_Token_Throughput_tok_s := extract ottPat s
  Total_Token_Throughput_tok_s := extract tttPat s
  Mean_E2E_Latency_ms := extract e2ePat s
  Mean_TTFT_ms := extract ttftPat s
  Mean_ITL_ms := extract itlPat s

/-- The `ValueError` Python raises on a failing `int(...)`/`float(...)`. -/
def pyValueErr : String := "ValueError"

/-- Process one `[RUNNING]` segment: `ok none` when the segment is skipped,
`ok (some r)` when a record is appended, `error` when a numeric conversion
raises. -/
def parseRun (run : List Char) : Except String (Option BenchmarkRun) :=
  match searchHeader run with
  | none => .ok none
  | some h =>
    if intChecksOk run then
      if hasMarker run then
        if floatChecksOk run then .ok (some (mkRun h run)) else .error pyValueErr
      else .ok none
    else .error pyValueErr

/-- Process the segments in order, collecting the emitted records;
the first raised conversion error aborts the whole parse. -/
def parseSegs : List (List Char) → Except String (List BenchmarkRun)
  | [] => .ok []
  | seg :: t =>
    match parseRun seg with
    | .error e => .error e
    | .ok o =>
      match parseSegs t with
      | .error e => .error e
      | .ok rs => .ok (o.elim rs (· :: rs))

/-- `re.split(r'\[RUNNING\]', content)[1:]`. -/
def segmentsOf (content : List Char) : List (List Char) :=
  (splitLit runningLit content).tail

/-- `parse_benchmark_log`, given the file content. -/
def parse_benchmark_log (logContent : String) : Except String (List BenchmarkRun) :=
  parseSegs (segmentsOf logContent.data)

/-! ## The dataframe model -/

/-- A dataframe cell: a string, an integer, an exact float, or a missing
value (`None`/`NaN`). -/
inductive Cell where
  | str (v : String)
  | nat (n : Nat)
  | dec (d : Dec)
  | nan
deriving DecidableEq, Repr

def optNatCell (o : Option Nat) : Cell := o.elim Cell.nan Cell.nat

def optDecCell (o : Option Dec) : Cell := o.elim Cell.nan Cell.dec

/-- The column labels of `pd.DataFrame(results)`: exactly the keys of the
dicts built by `parse_benchmark_log`, in insertion order. -/
def recordCols : List String :=
  ["Model", "xP_yD", "ISL", "OSL", "Concurrency",
   "Prompts_Group", "Total_Prompts", "Total_Input_Tokens", "Total_Output_Tokens",
   "Request_Throughput_req_s", "Input_Token_Throughput_tok_s",
   "Output_Token_Throughput_tok_s", "Total_Token_Throughput_tok_s",
   "Mean_E2E_Latency_ms", "Mean_TTFT_ms", "Mean_ITL_ms"]

/-- The dataframe row of one record, in the column order of `recordCols`. -/
def rowOfRun (r : BenchmarkRun) : List Cell :=
  [Cell.str r.Model, Cell.str r.xP_yD, Cell.nat r.ISL, Cell.nat r.OSL,
   Cell.nat r.Concurrency,
   optNatCell r.Prompts_Group, optNatCell r.Total_Prompts,
   optNatCell r.Total_Input_Tokens, optNatCell r.Total_Output_Tokens,
   optDecCell r.Request_Throughput_req_s, optDecCell r.Input_Token_Throughput_tok_s,
   optDecCell r.Output_Token_Throughput_tok_s, optDecCell r.Total_Token_Throughput_tok_s,
   optDecCell r.Mean_E2E_Latency_ms, optDecCell r.Mean_TTFT_ms,
   optDecCell r.Mean_ITL_ms]

/-- A dataframe: labelled columns and rows of cells. -/
structure Frame where
  cols : List String
  rows : List (List Cell)
deriving DecidableEq, Repr

/-- `pd.DataFrame(results)`. -/
def frameOfRuns (rs : List BenchmarkRun) : Frame :=
  ⟨recordCols, rs.map rowOfRun⟩

/-- `df[columns]`: project to the listed columns, `none` modelling the
`KeyError` pandas raises when any label is missing. -/
def selectCols (cols : List String) (f : Frame) : Option Frame :=
  if cols.all (fun c => f.cols.contains c) then
    some ⟨cols, f.rows.map (fun row =>
      cols.map (fun c =>
        match f.cols.findIdx? (fun c0 => c0 == c) with
        | some i => row.getD i Cell.nan
        | none => Cell.nan))⟩
  else none

/-- The column list selected by `--compact` in `main`. -/
def compactColumns : List String :=
  ["Model", "xP/yD", "ISL", "OSL", "Concurrency",
   "Request Throughput (req/s)", "Total Token Throughput (tok/s)",
   "Mean E2E Latency (ms)", "Mean TTFT (ms)", "Mean ITL (ms)"]

/-! ## Display formatting (`format_dataframe`) -/

/-- Round a fraction `num / den` to an integer, ties to even
(Python's default rounding for `f"{x:.2f}"`). -/
def roundHalfEven (num den : Nat) : Nat :=
  let q := num / den
  let r := num % den
  if 2 * r < den then q
  else if den < 2 * r then q + 1
  else if q % 2 = 0 then q else q + 1

/-- The value of `d` scaled by 100 and rounded to an integer. -/
def fixed2 (d : Dec) : Nat :=
  if d.exp ≤ 2 then d.mant * 10 ^ (2 - d.exp)
  else roundHalfEven d.mant (10 ^ (d.exp - 2))

/-- `f"{x:.2f}"`: exactly two digits after the decimal point. -/
def formatFixed2 (d : Dec) : String :=
  let v := fixed2 d
  natStr (v / 100) ++ "." ++
    String.mk (if v % 100 < 10 then '0' :: natToDigits (v % 100) else natToDigits (v % 100))

/-- Insert a comma after every three characters of a reversed digit list. -/
def commasRev : List Char → List Char
  | c1 :: c2 :: c3 :: c4 :: t => c1 :: c2 :: c3 :: ',' :: commasRev (c4 :: t)
  | l => l

/-- `f"{int(x):,}"`: digit grouping with thousands commas. -/
def groupThousands (n : Nat) : String :=
  String.mk (commasRev (natToDigits n).reverse).reverse

/-- The float-cell formatter `lambda x: f"{x:.2f}" if pd.notna(x) else x`. -/
def fmtFloatCell : Cell → Cell
  | Cell.dec d => Cell.str (formatFixed2 d)
  | Cell.nat n => Cell.str (formatFixed2 ⟨n, 0⟩)
  | Cell.nan => Cell.nan
  | Cell.str v => Cell.str v

/-- The int-cell formatter `lambda x: f"{int(x):,}" if pd.notna(x) else x`. -/
def fmtIntCell : Cell → Cell
  | Cell.nat n => Cell.str (groupThousands n)
  | Cell.dec d => Cell.str (groupThousands (d.mant / 10 ^ d.exp))
  | Cell.nan => Cell.nan
  | Cell.str v => Cell.str v

/-- Apply a cell formatter to the named column when it exists
(`if col in df.columns`), leaving the frame unchanged otherwise. -/
def applyCol (name : String) (g : Cell → Cell) (f : Frame) : Frame :=
  match f.cols.findIdx? (fun c0 => c0 == name) with
  | some i =>
    ⟨f.cols, f.rows.map (fun row => row.mapIdx (fun j c => if j = i then g c else c))⟩
  | none => f

/-- The `numeric_cols` list of `format_dataframe`. -/
def numericColsFmt : List String :=
  ["Request Throughput (req/s)", "Input Token Throughput (tok/s)",
   "Output Token Throughput (tok/s)", "Total Token Throughput (tok/s)",
   "Mean E2E Latency (ms)", "Mean TTFT (ms)", "Mean ITL (ms)"]

/-- The `integer_cols` list of `format_dataframe`. -/
def integerColsFmt : List String := ["Total Input Tokens", "Total Output Tokens"]

/-- `format_dataframe`. -/
def format_dataframe (f : Frame) : Frame :=
  integerColsFmt.foldl (fun acc c => applyCol c fmtIntCell acc)
    (numericColsFmt.foldl (fun acc c => applyCol c fmtFloatCell acc) f)

/-! ## `main` -/

/-- Parsed command-line options reaching `main`'s body. -/
structure Args where
  logfile : String
  csv : Option String
  compact : Bool
  no_screen : Bool

/-- The outcome of `open(logfile).read()`: the file may be missing
(`FileNotFoundError`), unreadable for another reason (any other `OSError`),
or readable with some content. -/
inductive ReadResult where
  | notFound
  | readErr (msg : String)
  | content (text : String)

/-- Everything observable about one invocation: the exit code, the lines
written to stderr, the frame printed to the screen (if any), the CSV file
written (path and unformatted frame, if any), and whether the log file was
ever opened. -/
structure MainResult where
  exitCode : Nat
  errLines : List String
  screenFrame : Option Frame
  csvFile : Option (String × Frame)
  openedLog : Bool
deriving DecidableEq, Repr

/-- `parser.error("--no-screen requires --csv option")`; `argparse` prints
the message to stderr and exits with status 2. -/
def usageErr : String := "error: --no-screen requires --csv option"

def fileNotFoundMsg (f : String) : String := "Error: File '" ++ f ++ "' not found."

def parseErrMsg (e : String) : String := "Error parsing log file: " ++ e

def noResultsMsg : String := "No benchmark results found in the log file."

/-- The uncaught `KeyError` escaping `df[columns]`; Python prints the
traceback to stderr and exits with status 1. -/
def keyErrMsg : String := "KeyError"

/-- The `except` report of a failed `df.to_csv(args.csv)`. -/
def csvErrMsg (e : String) : String := "Error saving CSV file: " ++ e

/-- The `if args.csv:` block at the end of `main`: attempt
`df.to_csv(args.csv, index=False)` on the unformatted dataframe.
`writeErr p = some e` models the write to path `p` raising an exception
with message `e`: it is reported as the CSV-save error and the process
exits 1 (the screen output has already happened).  `writeErr p = none`
models a successful write of `df`'s raw cells to `p`. -/
def csvStage (writeErr : String → Option String) (csvArg : Option String)
    (screen : Option Frame) (df : Frame) : MainResult :=
  match csvArg with
  | none => ⟨0, [], screen, none, true⟩
  | some p =>
    match writeErr p with
    | some e => ⟨1, [csvErrMsg e], screen, none, true⟩
    | none => ⟨0, [], screen, some (p, df), true⟩

/-- A file system in which every CSV write succeeds. -/
def writeOk : String → Option String := fun _ => none

/-- `main`, as a function of the file system (what reading each path
yields), the outcome of writing each CSV path (`some e` models `to_csv`
raising with message `e`), and the parsed options. -/
def main (fs : String → ReadResult) (writeErr : String → Option String)
    (args : Args) : MainResult :=
  if args.no_screen && args.csv.isNone then
    ⟨2, [usageErr], none, none, false⟩
  else
    match fs args.logfile with
    | ReadResult.notFound => ⟨1, [fileNotFoundMsg args.logfile], none, none, true⟩
    | ReadResult.readErr m => ⟨1, [parseErrMsg m], none, none, true⟩
    | ReadResult.content text =>
      match parse_benchmark_log text with
      | Except.error e => ⟨1, [parseErrMsg e], none, none, true⟩
      | Except.ok [] => ⟨1, [noResultsMsg], none, none, true⟩
      | Except.ok results =>
        match (if args.compact then selectCols compactColumns (frameOfRuns results)
               else some (frameOfRuns results)) with
        | none => ⟨1, [keyErrMsg], none, none, true⟩
        | some df =>
          csvStage writeErr args.csv
            (if args.no_screen then none else some (format_dataframe df)) df

/-! ## CSV serialization (`df.to_csv`) and re-reading

Modelled at cell level: `to_csv` writes each cell's raw value (missing
values as the empty field, floats with their exact decimal representation),
and re-reading parses each field back according to the column's type. -/

/-- Zero-pad a digit list on the left to length `e`. -/
def padZeros (e : Nat) (l : List Char) : List Char :=
  List.replicate (e - l.length) '0' ++ l

/-- Exact decimal text of a float value, as `repr` of the Python float
writes it (always with a decimal point). -/
def decStr (d : Dec) : String :=
  if d.exp = 0 then natStr d.mant ++ ".0"
  else natStr (d.mant / 10 ^ d.exp) ++ "." ++
    String.mk (padZeros d.exp (natToDigits (d.mant % 10 ^ d.exp)))

/-- The raw CSV text of one cell. -/
def csvCell : Cell → String
  | Cell.str v => v
  | Cell.nat n => natStr n
  | Cell.dec d => decStr d
  | Cell.nan => ""

/-- The CSV line of one record: its raw cells in column order. -/
def csvRowOfRun (r : BenchmarkRun) : List String :=
  (rowOfRun r).map csvCell

/-- Re-read a string column's field. -/
def readStrCell (s : String) : Option Cell := some (Cell.str s)

/-- Re-read an integer column's field: empty means missing. -/
def readNatCell (s : String) : Option Cell :=
  if s.data.isEmpty then some Cell.nan
  else if s.data.all Char.isDigit then some (Cell.nat (natFromDigits s.data))
  else none

/-- Re-read a float column's field: empty means missing, otherwise the
field is parsed as a Python float literal. -/
def readDecCell (s : String) : Option Cell :=
  if s.data.isEmpty then some Cell.nan
  else (floatOfCap s.data).map Cell.dec

/-- The per-column readers, in the column order of `recordCols`. -/
def colReaders : List (String → Option Cell) :=
  [readStrCell, readStrCell, readNatCell, readNatCell, readNatCell,
   readNatCell, readNatCell, readNatCell, readNatCell,
   readDecCell, readDecCell, readDecCell, readDecCell,
   readDecCell, readDecCell, readDecCell]

/-- Apply the readers position-wise to a CSV line. -/
def readCells : List (String → Option Cell) → List String → Option (List Cell)
  | [], [] => some []
  | f :: fs, s :: ss => (f s).bind fun c => (readCells fs ss).map (c :: ·)
  | _, _ => none

/-- Re-read one record's CSV line into its row of cells. -/
def readCsvRow (row : List String) : Option (List Cell) :=
  readCells colReaders row

/-! ## `socket_wait.py` -/

/-- The possible outcomes of one `connect_ex` attempt. -/
inductive ConnectOutcome where
  | success
  | refused
  | timedOut
  | unreachable
deriving DecidableEq, Repr

/-- The errno `connect_ex` returns for each outcome (0 on success,
`ECONNREFUSED`, `ETIMEDOUT`, `EHOSTUNREACH` otherwise). -/
def connErrno : ConnectOutcome → Nat
  | ConnectOutcome.success => 0
  | ConnectOutcome.refused => 111
  | ConnectOutcome.timedOut => 110
  | ConnectOutcome.unreachable => 113

/-- `is_port_open`: `connect_ex((host, port)) == 0`. -/
def is_port_open (o : ConnectOutcome) : Bool := connErrno o == 0

/-- Observable events of the waiting loop. -/
inductive WaitEvent where
  | connAttempt (opened : Bool)
  | sleepInterval
deriving DecidableEq, Repr

/-- The event trace of `wait_while_port_open`, driven by the sequence of
connection outcomes: while the port is open, sleep and re-attempt; the
first failed attempt ends the loop (and the process exits successfully).
Only the outcomes up to and including the first failure are consumed. -/
def wait_while_port_open : List ConnectOutcome → List WaitEvent
  | [] => []
  | o :: t =>
    if is_port_open o then
      WaitEvent.connAttempt true :: WaitEvent.sleepInterval :: wait_while_port_open t
    else [WaitEvent.connAttempt false]

/-- Number of leading successful attempts. -/
def leadingOpen : List ConnectOutcome → Nat
  | [] => 0
  | o :: t => if is_port_open o then leadingOpen t + 1 else 0

/-! ## Structural lemmas about the parser -/

theorem parseRun_isSome {seg : List Char} {o : Option BenchmarkRun}
    (h : parseRun seg = Except.ok o) :
    o.isSome = ((searchHeader seg).isSome && hasMarker seg) := by
  unfold parseRun at h
  cases hh : searchHeader seg with
  | none =>
    rw [hh] at h
    simp at h
    subst h
    simp [hh]
  | some g =>
    rw [hh] at h
    by_cases hic : intChecksOk seg
    · simp only [hic, if_pos] at h
      by_cases hm : hasMarker seg
      · simp only [hm, if_pos] at h
        by_cases hfc : floatChecksOk seg
        · simp only [hfc, if_pos] at h
          simp at h
          subst h
          simp [hh, hm]
        · simp [hfc] at h
      · simp only [hm, if_neg] at h
        simp at h
        subst h
        simp [hh, hm]
    · simp [hic] at h

theorem parseRun_emit {seg : List Char} {r : BenchmarkRun}
    (h : parseRun seg = Except.ok (some r)) :
    ∃ g, searchHeader seg = some g ∧ r = mkRun g seg ∧
      intChecksOk seg = true ∧ hasMarker seg = true ∧ floatChecksOk seg = true := by
  unfold parseRun at h
  cases hh : searchHeader seg with
  | none => rw [hh] at h; simp at h
  | some g =>
    rw [hh] at h
    by_cases hic : intChecksOk seg
    · simp only [hic, if_pos] at h
      by_cases hm : hasMarker seg
      · simp only [hm, if_pos] at h
        by_cases hfc : floatChecksOk seg
        · simp only [hfc, if_pos] at h
          simp at h
          exact ⟨g, rfl, h.symm, hic, hm, hfc⟩
        · simp [hfc] at h
      · simp only [hm, if_neg] at h
        simp at h
    · simp [hic] at h

theorem parseSegs_count {segs : List (List Char)} {rs : List BenchmarkRun}
    (h : parseSegs segs = Except.ok rs) :
    rs.length = segs.countP (fun seg => (searchHeader seg).isSome && hasMarker seg) ∧
      rs.length ≤ segs.length := by
  induction segs generalizing rs with
  | nil =>
    simp [parseSegs] at h
    subst h
    simp
  | cons seg t ih =>
    unfold parseSegs at h
    cases hr : parseRun seg with
    | error e => rw [hr] at h; simp at h
    | ok o =>
      rw [hr] at h
      cases ht : parseSegs t with
      | error e => rw [ht] at h; simp at h
      | ok rs' =>
        rw [ht] at h
        simp at h
        subst h
        have hco := ih ht
        have hs := parseRun_isSome hr
        cases o with
        | none =>
          have hfalse : ((searchHeader seg).isSome && hasMarker seg) = false := by
            simpa using hs.symm
          refine ⟨?_, ?_⟩
          · simp [List.countP_cons, hfalse, hco.1]
          · have := hco.2
            simp only [Option.elim, List.length_cons]
            omega
        | some r0 =>
          have htrue : ((searchHeader seg).isSome && hasMarker seg) = true := by
            simpa using hs.symm
          refine ⟨?_, ?_⟩
          · simp [List.countP_cons, htrue, hco.1]
          · have := hco.2
            simp only [Option.elim, List.length_cons]
            omega

theorem parseSegs_mem {segs : List (List Char)} {rs : List BenchmarkRun}
    {r : BenchmarkRun} (h : parseSegs segs = Except.ok rs) (hm : r ∈ rs) :
    ∃ seg, seg ∈ segs ∧ parseRun seg = Except.ok (some r) := by
  induction segs generalizing rs with
  | nil =>
    simp [parseSegs] at h
    subst h
    simp at hm
  | cons seg t ih =>
    unfold parseSegs at h
    cases hr : parseRun seg with
    | error e => rw [hr] at h; simp at h
    | ok o =>
      rw [hr] at h
      cases ht : parseSegs t with
      | error e => rw [ht] at h; simp at h
      | ok rs' =>
        rw [ht] at h
        simp at h
        subst h
        cases o with
        | none =>
          obtain ⟨seg', hs1, hs2⟩ := ih ht hm
          exact ⟨seg', List.mem_cons_of_mem _ hs1, hs2⟩
        | some r0 =>
          rcases List.mem_cons.mp hm with hc | hc
          · subst hc
            exact ⟨seg, List.mem_cons_self _ _, hr⟩
          · obtain ⟨seg', hs1, hs2⟩ := ih ht hc
            exact ⟨seg', List.mem_cons_of_mem _ hs1, hs2⟩

/-! ## Extraction lemmas -/

theorem extractNat_none_iff (fp : FieldPat) (s : List Char) :
    extractNat fp s = none ↔ searchCap fp s = none := by
  unfold extractNat
  cases hs : searchCap fp s <;> simp

theorem checkInt_none_iff {fp : FieldPat} {s : List Char}
    (h : checkInt fp s = true) :
    extractIntC fp s = none ↔ searchCap fp s = none := by
  unfold checkInt at h
  unfold extractIntC
  cases hs : searchCap fp s with
  | none => simp
  | some cap =>
    rw [hs] at h
    simp at h
    cases hi : intOfCap cap with
    | none => rw [hi] at h; simp at h
    | some n => simp [hi]

theorem checkFloat_none_iff {fp : FieldPat} {s : List Char}
    (h : checkFloat fp s = true) :
    extract fp s = none ↔ searchCap fp s = none := by
  unfold checkFloat at h
  unfold extract
  cases hs : searchCap fp s with
  | none => simp
  | some cap =>
    rw [hs] at h
    simp at h
    cases hi : floatOfCap cap with
    | none => rw [hi] at h; simp at h
    | some d => simp [hi]

theorem intOfCap_val {cap : List Char} {n : Nat} (h : intOfCap cap = some n) :
    n = natFromDigits (stripCommas cap) := by
  unfold intOfCap at h
  by_cases he : (stripCommas cap).isEmpty
  · simp [he] at h
  · simp [he] at h
    exact h.symm

theorem floatOfCap_normal {cap : List Char} {d : Dec}
    (h : floatOfCap cap = some d) : d.Normal := by
  unfold floatOfCap at h
  cases hs : splitAtDot (stripCommas cap) with
  | mk a r =>
    rw [hs] at h
    cases r with
    | none =>
      by_cases he : a.isEmpty
      · simp [he] at h
      · simp [he] at h
        subst h
        left
        rfl
    | some b =>
      by_cases hc : b.count '.' = 0
      · by_cases hab : a.isEmpty ∧ b.isEmpty
        · simp [hc, hab] at h
        · simp [hc, hab] at h
          obtain ⟨-, h⟩ := h
          subst h
          exact mkDec_normal _ _
      · simp [hc] at h

theorem extract_normal {fp : FieldPat} {s : List Char} {d : Dec}
    (h : extract fp s = some d) : d.Normal := by
  unfold extract at h
  cases hs : searchCap fp s with
  | none => rw [hs] at h; simp at h
  | some cap =>
    rw [hs] at h
    simp at h
    exact floatOfCap_normal h

/-! ## CSV round-trip lemmas -/

theorem data_of_append (a b : String) : (a ++ b).data = a.data ++ b.data := rfl

theorem data_of_mk (l : List Char) : (String.mk l).data = l := rfl

theorem digit_ne_comma {c : Char} (h : c.isDigit = true) : c ≠ ',' := by
  intro hc
  subst hc
  simp [Char.isDigit] at h

theorem digit_ne_dot {c : Char} (h : c.isDigit = true) : c ≠ '.' := by
  intro hc
  subst hc
  simp [Char.isDigit] at h

theorem stripCommas_of_no_comma {l : List Char} (h : ∀ c ∈ l, c ≠ ',') :
    stripCommas l = l := by
  unfold stripCommas
  rw [List.filter_eq_self]
  intro c hc
  simpa using h c hc

theorem mem_natToDigits_digit {n : Nat} {c : Char} (h : c ∈ natToDigits n) :
    c.isDigit = true := by
  have := natToDigits_all_digit n
  rw [List.all_eq_true] at this
  exact this c h

theorem splitAtDot_no_dot {l : List Char} (h : ∀ c ∈ l, c ≠ '.') :
    splitAtDot l = (l, none) := by
  induction l with
  | nil => rfl
  | cons c t ih =>
    have hc : c ≠ '.' := h c (List.mem_cons_self _ _)
    have ht := ih (fun x hx => h x (List.mem_cons_of_mem _ hx))
    simp [splitAtDot, hc, ht]

theorem splitAtDot_append {a b : List Char} (h : ∀ c ∈ a, c ≠ '.') :
    splitAtDot (a ++ '.' :: b) = (a, some b) := by
  induction a with
  | nil => simp [splitAtDot]
  | cons c t ih =>
    have hc : c ≠ '.' := h c (List.mem_cons_self _ _)
    have ht := ih (fun x hx => h x (List.mem_cons_of_mem _ hx))
    simp [splitAtDot, hc, ht]

theorem natFromDigits_cons_zero (t : List Char) :
    natFromDigits ('0' :: t) = natFromDigits t := by
  simp [natFromDigits, digitVal]

theorem natFromDigits_replicate_zero (k : Nat) (l : List Char) :
    natFromDigits (List.replicate k '0' ++ l) = natFromDigits l := by
  induction k with
  | zero => simp
  | succ k ih =>
    rw [List.replicate_succ, List.cons_append, natFromDigits_cons_zero, ih]

theorem natFromDigits_padZeros (e : Nat) (l : List Char) :
    natFromDigits (padZeros e l) = natFromDigits l :=
  natFromDigits_replicate_zero _ l

theorem padZeros_length {e : Nat} {l : List Char} (h : l.length ≤ e) :
    (padZeros e l).length = e := by
  simp [padZeros]
  omega

theorem mem_padZeros {e : Nat} {l : List Char} {c : Char}
    (h : c ∈ padZeros e l) : c = '0' ∨ c ∈ l := by
  unfold padZeros at h
  rcases List.mem_append.mp h with h | h
  · exact Or.inl (List.eq_of_mem_replicate h)
  · exact Or.inr h

theorem natFromDigits_single_zero : natFromDigits ['0'] = 0 := by decide

/-- Serializing an exact float value to its CSV text and re-parsing it with
Python's float conversion restores the value exactly. -/
theorem floatOfCap_decStr {d : Dec} (h : d.Normal) :
    floatOfCap (decStr d).data = some d := by
  rcases d with ⟨m, E⟩
  cases E with
  | zero =>
    have hdata : (decStr ⟨m, 0⟩).data = natToDigits m ++ '.' :: ['0'] := by
      simp [decStr, natStr, data_of_append, data_of_mk]
    have hnc : ∀ c ∈ natToDigits m ++ '.' :: ['0'], c ≠ ',' := by
      intro c hc
      rcases List.mem_append.mp hc with hc | hc
      · exact digit_ne_comma (mem_natToDigits_digit hc)
      · rcases List.mem_cons.mp hc with hc | hc
        · subst hc; decide
        · simp at hc; subst hc; decide
    have hnd : ∀ c ∈ natToDigits m, c ≠ '.' :=
      fun c hc => digit_ne_dot (mem_natToDigits_digit hc)
    unfold floatOfCap
    rw [hdata, stripCommas_of_no_comma hnc, splitAtDot_append hnd]
    have hb : (['0'] : List Char).count '.' = 0 := by decide
    simp only [hb, if_pos rfl]
    have hbe : (['0'] : List Char).isEmpty = false := by decide
    simp only [hbe, List.length_singleton]
    rw [natFromDigits_append, natFromDigits_single_zero]
    have hmk : mkDec (natFromDigits (natToDigits m) * 10) 1 = ⟨m, 0⟩ := by
      rw [natFromDigits_natToDigits]
      unfold mkDec
      rw [stripZeros_succ_pos 0 (Nat.mul_mod_left m 10)]
      rw [Nat.mul_div_cancel m (by omega : 0 < 10)]
      rfl
    simp [hmk]
  | succ e =>
    have hE : 0 < e + 1 := by omega
    have hmod : m % 10 ^ (e + 1) < 10 ^ (e + 1) :=
      Nat.mod_lt m (Nat.pos_pow_of_pos _ (by omega))
    have hlen : (natToDigits (m % 10 ^ (e + 1))).length ≤ e + 1 :=
      natToDigits_length_le hE hmod
    set fr := padZeros (e + 1) (natToDigits (m % 10 ^ (e + 1))) with hfr
    have hfrlen : fr.length = e + 1 := padZeros_length hlen
    have hfrdig : ∀ c ∈ fr, c.isDigit = true := by
      intro c hc
      rcases mem_padZeros hc with hc | hc
      · subst hc; decide
      · exact mem_natToDigits_digit hc
    have hdata : (decStr ⟨m, e + 1⟩).data =
        natToDigits (m / 10 ^ (e + 1)) ++ '.' :: fr := by
      simp [decStr, natStr, data_of_append, data_of_mk, hfr]
    have hnc : ∀ c ∈ natToDigits (m / 10 ^ (e + 1)) ++ '.' :: fr, c ≠ ',' := by
      intro c hc
      rcases List.mem_append.mp hc with hc | hc
      · exact digit_ne_comma (mem_natToDigits_digit hc)
      · rcases List.mem_cons.mp hc with hc | hc
        · subst hc; decide
        · exact digit_ne_comma (hfrdig c hc)
    have hnd : ∀ c ∈ natToDigits (m / 10 ^ (e + 1)), c ≠ '.' :=
      fun c hc => digit_ne_dot (mem_natToDigits_digit hc)
    unfold floatOfCap
    rw [hdata, stripCommas_of_no_comma hnc, splitAtDot_append hnd]
    have hcnt : fr.count '.' = 0 := by
      rw [List.count_eq_zero]
      intro hc
      exact digit_ne_dot (hfrdig '.' hc) rfl
    have hbe : fr.isEmpty = false := by
      cases hfre : fr with
      | nil => rw [hfre] at hfrlen; simp at hfrlen
      | cons x xs => rfl
    simp only [hcnt, if_pos rfl, hbe]
    have hval : natFromDigits (natToDigits (m / 10 ^ (e + 1)) ++ fr) = m := by
      rw [natFromDigits_append, hfrlen, natFromDigits_padZeros,
        natFromDigits_natToDigits, natFromDigits_natToDigits, Nat.mul_comm]
      exact Nat.div_add_mod m (10 ^ (e + 1))
    have hnorm : (Dec.mk m (e + 1)).Normal := h
    simp only [hval, hfrlen]
    have := mkDec_of_normal hnorm
    simp only at this
    simp [this]

theorem natToDigits_isEmpty (n : Nat) : (natToDigits n).isEmpty = false := by
  cases h : natToDigits n with
  | nil => exact absurd h (natToDigits_ne_nil n)
  | cons x xs => rfl

theorem readNatCell_natStr (n : Nat) : readNatCell (natStr n) = some (Cell.nat n) := by
  unfold readNatCell natStr
  rw [data_of_mk, natToDigits_isEmpty, natToDigits_all_digit,
    natFromDigits_natToDigits]
  rfl

theorem readNatCell_opt (o : Option Nat) :
    readNatCell (csvCell (optNatCell o)) = some (optNatCell o) := by
  cases o with
  | none => rfl
  | some n =>
    show readNatCell (natStr n) = some (Cell.nat n)
    exact readNatCell_natStr n

theorem decStr_data_ne_nil (d : Dec) : (decStr d).data ≠ [] := by
  rcases d with ⟨m, E⟩
  cases E with
  | zero =>
    show ((natStr m ++ ".0").data) ≠ []
    rw [data_of_append]
    simp [natStr, data_of_mk, natToDigits_ne_nil]
  | succ e =>
    show ((natStr (m / 10 ^ (e + 1)) ++ "." ++ _).data) ≠ []
    rw [data_of_append, data_of_append]
    simp [natStr, data_of_mk, natToDigits_ne_nil]

theorem readDecCell_opt {o : Option Dec} (h : ∀ d, o = some d → d.Normal) :
    readDecCell (csvCell (optDecCell o)) = some (optDecCell o) := by
  cases o with
  | none => rfl
  | some d =>
    show readDecCell (decStr d) = some (Cell.dec d)
    unfold readDecCell
    have hne : (decStr d).data.isEmpty = false := by
      cases hc : (decStr d).data with
      | nil => exact absurd hc (decStr_data_ne_nil d)
      | cons x xs => rfl
    rw [hne, floatOfCap_decStr (h d rfl)]
    rfl

/-- The float fields of a record are all in normal form (true of every
record the parser emits). -/
def RunNormal (r : BenchmarkRun) : Prop :=
  (∀ d, r.Request_Throughput_req_s = some d → d.Normal) ∧
  (∀ d, r.Input_Token_Throughput_tok_s = some d → d.Normal) ∧
  (∀ d, r.Output_Token_Throughput_tok_s = some d → d.Normal) ∧
  (∀ d, r.Total_Token_Throughput_tok_s = some d → d.Normal) ∧
  (∀ d, r.Mean_E2E_Latency_ms = some d → d.Normal) ∧
  (∀ d, r.Mean_TTFT_ms = some d → d.Normal) ∧
  (∀ d, r.Mean_ITL_ms = some d → d.Normal)

theorem parseRun_normal {seg : List Char} {r : BenchmarkRun}
    (h : parseRun seg = Except.ok (some r)) : RunNormal r := by
  obtain ⟨g, hg, hr, -, -, -⟩ := parseRun_emit h
  subst hr
  exact ⟨fun d hd => extract_normal hd, fun d hd => extract_normal hd,
    fun d hd => extract_normal hd, fun d hd => extract_normal hd,
    fun d hd => extract_normal hd, fun d hd => extract_normal hd,
    fun d hd => extract_normal hd⟩

theorem readStrCell_str (v : String) :
    readStrCell (csvCell (Cell.str v)) = some (Cell.str v) := rfl

theorem readNatCell_nat (n : Nat) :
    readNatCell (csvCell (Cell.nat n)) = some (Cell.nat n) :=
  readNatCell_natStr n

/-- Writing a record's raw CSV line and re-reading it restores every cell
exactly. -/
theorem readCsvRow_rt {r : BenchmarkRun} (hn : RunNormal r) :
    readCsvRow (csvRowOfRun r) = some (rowOfRun r) := by
  obtain ⟨h1, h2, h3, h4, h5, h6, h7⟩ := hn
  unfold readCsvRow csvRowOfRun rowOfRun colReaders
  simp only [List.map_cons, List.map_nil, readCells, readStrCell_str,
    readNatCell_nat, readNatCell_opt, readDecCell_opt h1, readDecCell_opt h2,
    readDecCell_opt h3, readDecCell_opt h4, readDecCell_opt h5,
    readDecCell_opt h6, readDecCell_opt h7, Option.some_bind, Option.map_some]
  rfl

/-! ## Frame and `main` lemmas -/

/-- `format_dataframe` changes nothing on the real dataframe: none of the
column names it formats occurs among the parser's column labels. -/
theorem format_dataframe_id (rows : List (List Cell)) :
    format_dataframe ⟨recordCols, rows⟩ = ⟨recordCols, rows⟩ := rfl

/-- The compact projection always raises `KeyError` on the real dataframe:
`"xP/yD"` and the five pretty metric labels are not among the parser's
column labels. -/
theorem selectCols_compact_none (rows : List (List Cell)) :
    selectCols compactColumns ⟨recordCols, rows⟩ = none := rfl

theorem argsGuard_false {args : Args}
    (hv : args.no_screen = true → args.csv ≠ none) :
    (args.no_screen && args.csv.isNone) = false := by
  cases hn : args.no_screen with
  | false => rfl
  | true =>
    cases hcsv : args.csv with
    | none => exact absurd hcsv (hv hn)
    | some p => rfl

theorem main_config_err {fs : String → ReadResult}
    {w : String → Option String} {args : Args}
    (h1 : args.no_screen = true) (h2 : args.csv = none) :
    main fs w args = ⟨2, [usageErr], none, none, false⟩ := by
  unfold main
  rw [h1, h2]
  rfl

theorem main_notFound {fs : String → ReadResult}
    {w : String → Option String} {args : Args}
    (hv : args.no_screen = true → args.csv ≠ none)
    (h : fs args.logfile = ReadResult.notFound) :
    main fs w args = ⟨1, [fileNotFoundMsg args.logfile], none, none, true⟩ := by
  unfold main
  rw [argsGuard_false hv, h]
  rfl

theorem main_readErr {fs : String → ReadResult}
    {w : String → Option String} {args : Args} {m : String}
    (hv : args.no_screen = true → args.csv ≠ none)
    (h : fs args.logfile = ReadResult.readErr m) :
    main fs w args = ⟨1, [parseErrMsg m], none, none, true⟩ := by
  unfold main
  rw [argsGuard_false hv, h]
  rfl

theorem main_parseErr {fs : String → ReadResult}
    {w : String → Option String} {args : Args} {text e : String}
    (hv : args.no_screen = true → args.csv ≠ none)
    (h : fs args.logfile = ReadResult.content text)
    (hp : parse_benchmark_log text = Except.error e) :
    main fs w args = ⟨1, [parseErrMsg e], none, none, true⟩ := by
  simp only [main, argsGuard_false hv, h, hp]
  rfl

theorem main_noResults {fs : String → ReadResult}
    {w : String → Option String} {args : Args} {text : String}
    (hv : args.no_screen = true → args.csv ≠ none)
    (h : fs args.logfile = ReadResult.content text)
    (hp : parse_benchmark_log text = Except.ok []) :
    main fs w args = ⟨1, [noResultsMsg], none, none, true⟩ := by
  simp only [main, argsGuard_false hv, h, hp]
  rfl

theorem main_ok_full {fs : String → ReadResult}
    {w : String → Option String} {args : Args} {text : String}
    {results : List BenchmarkRun}
    (hv : args.no_screen = true → args.csv ≠ none)
    (hc : args.compact = false)
    (h : fs args.logfile = ReadResult.content text)
    (hp : parse_benchmark_log text = Except.ok results)
    (hne : results ≠ []) :
    main fs w args = csvStage w args.csv
      (if args.no_screen then none else some (format_dataframe (frameOfRuns results)))
      (frameOfRuns results) := by
  cases results with
  | nil => exact absurd rfl hne
  | cons r t =>
    simp only [main, argsGuard_false hv, h, hp, hc]
    rfl

theorem main_ok_compact {fs : String → ReadResult}
    {w : String → Option String} {args : Args} {text : String}
    {results : List BenchmarkRun}
    (hv : args.no_screen = true → args.csv ≠ none)
    (hc : args.compact = true)
    (h : fs args.logfile = ReadResult.content text)
    (hp : parse_benchmark_log text = Except.ok results)
    (hne : results ≠ []) :
    main fs w args = ⟨1, [keyErrMsg], none, none, true⟩ := by
  cases results with
  | nil => exact absurd rfl hne
  | cons r t =>
    simp only [main, argsGuard_false hv, h, hp, hc, frameOfRuns,
      selectCols_compact_none]
    rfl

/-! ## Distinctness of the failure reports -/

theorem fileNotFoundMsg_get5 (f : String) :
    (fileNotFoundMsg f).data.get? 5 = some ':' := by
  show (("Error: File '" ++ f).data ++ "' not found.".data).get? 5 = some ':'
  rw [List.get?_append (by
    rw [data_of_append, List.length_append]
    have : ("Error: File '".data).length = 13 := by decide
    omega)]
  rw [data_of_append, List.get?_append (by decide)]
  decide

theorem parseErrMsg_get5 (e : String) :
    (parseErrMsg e).data.get? 5 = some ' ' := by
  show ("Error parsing log file: ".data ++ e.data).get? 5 = some ' '
  rw [List.get?_append (by decide)]
  decide

theorem fileNotFoundMsg_get0 (f : String) :
    (fileNotFoundMsg f).data.get? 0 = some 'E' := by
  show (("Error: File '" ++ f).data ++ "' not found.".data).get? 0 = some 'E'
  rw [List.get?_append (by
    rw [data_of_append, List.length_append]
    have : ("Error: File '".data).length = 13 := by decide
    omega)]
  rw [data_of_append, List.get?_append (by decide)]
  decide

theorem parseErrMsg_get0 (e : String) :
    (parseErrMsg e).data.get? 0 = some 'E' := by
  show ("Error parsing log file: ".data ++ e.data).get? 0 = some 'E'
  rw [List.get?_append (by decide)]
  decide

theorem fileNotFoundMsg_ne_parseErrMsg (f e : String) :
    fileNotFoundMsg f ≠ parseErrMsg e := by
  intro h
  have h5 : (fileNotFoundMsg f).data.get? 5 = (parseErrMsg e).data.get? 5 := by rw [h]
  rw [fileNotFoundMsg_get5, parseErrMsg_get5] at h5
  simp at h5

theorem fileNotFoundMsg_ne_noResultsMsg (f : String) :
    fileNotFoundMsg f ≠ noResultsMsg := by
  intro h
  have h0 : (fileNotFoundMsg f).data.get? 0 = noResultsMsg.data.get? 0 := by rw [h]
  rw [fileNotFoundMsg_get0] at h0
  have hn : (noResultsMsg.data.get? 0) = some 'N' := by decide
  rw [hn] at h0
  simp at h0

theorem parseErrMsg_ne_noResultsMsg (e : String) :
    parseErrMsg e ≠ noResultsMsg := by
  intro h
  have h0 : (parseErrMsg e).data.get? 0 = noResultsMsg.data.get? 0 := by rw [h]
  rw [parseErrMsg_get0] at h0
  have hn : (noResultsMsg.data.get? 0) = some 'N' := by decide
  rw [hn] at h0
  simp at h0

/-! ## Field-level specification of emitted records -/

/-- Every optional numeric field of an emitted record equals its
independent extraction from the segment text, and is `None` exactly when
its pattern does not occur in the segment (never zero-substituted). -/
def FieldsExact (r : BenchmarkRun) (seg : List Char) : Prop :=
  (r.Prompts_Group = extractNat pgPat seg ∧
    (r.Prompts_Group = none ↔ searchCap pgPat seg = none)) ∧
  (r.Total_Prompts = extractNat tpPat seg ∧
    (r.Total_Prompts = none ↔ searchCap tpPat seg = none)) ∧
  (r.Total_Input_Tokens = extractIntC titPat seg ∧
    (r.Total_Input_Tokens = none ↔ searchCap titPat seg = none)) ∧
  (r.Total_Output_Tokens = extractIntC totPat seg ∧
    (r.Total_Output_Tokens = none ↔ searchCap totPat seg = none)) ∧
  (r.Request_Throughput_req_s = extract rtPat seg ∧
    (r.Request_Throughput_req_s = none ↔ searchCap rtPat seg = none)) ∧
  (r.Input_Token_Throughput_tok_s = extract ittPat seg ∧
    (r.Input_Token_Throughput_tok_s = none ↔ searchCap ittPat seg = none)) ∧
  (r.Output_Token_Throughput_tok_s = extract ottPat seg ∧
    (r.Output_Token_Throughput_tok_s = none ↔ searchCap ottPat seg = none)) ∧
  (r.Total_Token_Throughput_tok_s = extract tttPat seg ∧
    (r.Total_Token_Throughput_tok_s = none ↔ searchCap tttPat seg = none)) ∧
  (r.Mean_E2E_Latency_ms = extract e2ePat seg ∧
    (r.Mean_E2E_Latency_ms = none ↔ searchCap e2ePat seg = none)) ∧
  (r.Mean_TTFT_ms = extract ttftPat seg ∧
    (r.Mean_TTFT_ms = none ↔ searchCap ttftPat seg = none)) ∧
  (r.Mean_ITL_ms = extract itlPat seg ∧
    (r.Mean_ITL_ms = none ↔ searchCap itlPat seg = none))

theorem parseRun_fieldsExact {seg : List Char} {r : BenchmarkRun}
    (h : parseRun seg = Except.ok (some r)) : FieldsExact r seg := by
  obtain ⟨g, hg, hr, hic, hm, hfc⟩ := parseRun_emit h
  subst hr
  simp only [intChecksOk, Bool.and_eq_true] at hic
  simp only [floatChecksOk, Bool.and_eq_true] at hfc
  obtain ⟨hci1, hci2⟩ := hic
  obtain ⟨⟨⟨⟨⟨⟨⟨⟨hfsr, hfdur⟩, hfrt⟩, hfitt⟩, hfott⟩, hfttt⟩, hfe2e⟩, hfttft⟩, hfitl⟩ := hfc
  exact ⟨⟨rfl, extractNat_none_iff pgPat seg⟩,
    ⟨rfl, extractNat_none_iff tpPat seg⟩,
    ⟨rfl, checkInt_none_iff hci1⟩,
    ⟨rfl, checkInt_none_iff hci2⟩,
    ⟨rfl, checkFloat_none_iff hfrt⟩,
    ⟨rfl, checkFloat_none_iff hfitt⟩,
    ⟨rfl, checkFloat_none_iff hfott⟩,
    ⟨rfl, checkFloat_none_iff hfttt⟩,
    ⟨rfl, checkFloat_none_iff hfe2e⟩,
    ⟨rfl, checkFloat_none_iff hfttft⟩,
    ⟨rfl, checkFloat_none_iff hfitl⟩⟩

/-! ## Lemmas about the port waiter -/

theorem wait_trace_eq : ∀ {outs : List ConnectOutcome},
    (∃ o ∈ outs, is_port_open o = false) →
    wait_while_port_open outs =
      (List.replicate (leadingOpen outs)
        [WaitEvent.connAttempt true, WaitEvent.sleepInterval]).flatten ++
        [WaitEvent.connAttempt false] := by
  intro outs
  induction outs with
  | nil => intro hfail; simp at hfail
  | cons o t ih =>
    intro hfail
    by_cases ho : is_port_open o = true
    · have hf2 : ∃ x ∈ t, is_port_open x = false := by
        obtain ⟨x, hx, hxf⟩ := hfail
        rcases List.mem_cons.mp hx with hx0 | hx'
        · subst hx0
          rw [ho] at hxf
          simp at hxf
        · exact ⟨x, hx', hxf⟩
      simp only [wait_while_port_open, ho, if_pos, leadingOpen,
        List.replicate_succ, List.flatten, ih hf2]
      rfl
    · have ho' : is_port_open o = false := by simpa using ho
      simp [wait_while_port_open, ho', leadingOpen]

theorem count_sleep_join (k : Nat) :
    ((List.replicate k
      [WaitEvent.connAttempt true, WaitEvent.sleepInterval]).flatten).count
        WaitEvent.sleepInterval = k := by
  induction k with
  | zero => rfl
  | succ k ih =>
    rw [List.replicate_succ, List.flatten_cons, List.count_append, ih]
    have h1 : List.count WaitEvent.sleepInterval
        [WaitEvent.connAttempt true, WaitEvent.sleepInterval] = 1 := rfl
    omega

/-! ## Concrete fixtures -/

/-- A well-formed log with one run segment: valid header, marker line, one
metric line and one dataset-statistics line. -/
def sampleLog : String :=
  "junk[RUNNING] prompts isl 1 osl 2 con 3 model m xP=1 yD=2\n============ Serving Benchmark Result ============\nRequest throughput (req/s):  5.5\nTotal input tokens:   16,000\n"

/-- The record the parser emits for `sampleLog`. -/
def sampleRun : BenchmarkRun where
  Model := "m"
  xP_yD := "1p2d"
  ISL := 1
  OSL := 2
  Concurrency := 3
  Prompts_Group := none
  Total_Prompts := none
  Total_Input_Tokens := some 16000
  Total_Output_Tokens := none
  Request_Throughput_req_s := some ⟨55, 1⟩
  Input_Token_Throughput_tok_s := none
  Output_Token_Throughput_tok_s := none
  Total_Token_Throughput_tok_s := none
  Mean_E2E_Latency_ms := none
  Mean_TTFT_ms := none
  Mean_ITL_ms := none

/-- A file system whose every path holds `sampleLog`. -/
def sampleFs : String → ReadResult := fun _ => ReadResult.content sampleLog

/-- A log whose only segment has a valid header, no results-block marker,
and a `Total input tokens:` line whose capture is a bare comma — so
`int(',' .replace(',', ''))` raises `ValueError`. -/
def badLog : String :=
  "[RUNNING] prompts isl 1 osl 2 con 3 model m xP=1 yD=2\nTotal input tokens: ,\n"

/-! ## The claims -/

/-- C1: the spec says compact mode displays a strict column projection of
the full table.  In the code, the compact column list (`"xP/yD"`,
`"Request Throughput (req/s)"`, ...) does not match the dataframe's actual
column labels (`"xP_yD"`, `"Request_Throughput_req_s"`, ...), so
`df[columns]` raises an uncaught `KeyError` and the process dies with a
traceback instead of displaying anything: on a log with one record, full
mode succeeds while compact mode crashes, because no compact column name
except five of them occurs among the dataframe's columns. -/
theorem claim1_compact_mode_keyerror :
    main sampleFs writeOk ⟨"bench.log", none, true, false⟩ =
      ⟨1, [keyErrMsg], none, none, true⟩ ∧
    main sampleFs writeOk ⟨"bench.log", none, false, false⟩ =
      ⟨0, [], some (frameOfRuns [sampleRun]), none, true⟩ ∧
    compactColumns.all (fun c => recordCols.contains c) = false := by decide

/-- C2 (counterexample): the CSV written is not independent of the compact
flag.  With `--compact` the run crashes before the CSV write (no file at
all), without it the full frame is written — the two CSV outcomes differ. -/
theorem claim2_counterexample :
    (main sampleFs writeOk
      ⟨"bench.log", some "results.csv", true, false⟩).csvFile = none ∧
    (main sampleFs writeOk
      ⟨"bench.log", some "results.csv", false, false⟩).csvFile =
      some ("results.csv", frameOfRuns [sampleRun]) ∧
    (main sampleFs writeOk
      ⟨"bench.log", some "results.csv", true, false⟩).csvFile ≠
      (main sampleFs writeOk
        ⟨"bench.log", some "results.csv", false, false⟩).csvFile := by
  decide

/-- C2 (amended): when CSV output is enabled and the compact flag is not
given, the file written holds the full unformatted dataset — all sixteen
record columns with their raw values — and the display formatting never
touches it. -/
theorem claim2_csv_unformatted_when_not_compact (fs : String → ReadResult)
    (w : String → Option String) (args : Args) (text p : String)
    (results : List BenchmarkRun)
    (hc : args.compact = false) (hcsv : args.csv = some p)
    (hw : w p = none)
    (h : fs args.logfile = ReadResult.content text)
    (hp : parse_benchmark_log text = Except.ok results) (hne : results ≠ []) :
    (main fs w args).csvFile = some (p, frameOfRuns results) ∧
      (frameOfRuns results).cols = recordCols ∧
      format_dataframe (frameOfRuns results) = frameOfRuns results := by
  have hv : args.no_screen = true → args.csv ≠ none := by
    intro hn hcn
    rw [hcsv] at hcn
    exact Option.noConfusion hcn
  rw [main_ok_full hv hc h hp hne]
  refine ⟨?_, rfl, format_dataframe_id (results.map rowOfRun)⟩
  rw [hcsv]
  simp [csvStage, hw]

/-- C2 (witness). -/
theorem claim2_witness :
    (main sampleFs writeOk
        ⟨"bench.log", some "results.csv", false, false⟩).csvFile =
        some ("results.csv", frameOfRuns [sampleRun]) ∧
      (frameOfRuns [sampleRun]).cols = recordCols ∧
      format_dataframe (frameOfRuns [sampleRun]) = frameOfRuns [sampleRun] :=
  claim2_csv_unformatted_when_not_compact sampleFs writeOk
    ⟨"bench.log", some "results.csv", false, false⟩ sampleLog "results.csv"
    [sampleRun] rfl rfl rfl rfl (by decide) (by decide)

/-- C3: the spec says present floating-point metrics are rendered with two
decimals, token counts with digit grouping, and absent values as blanks.
In the code, `format_dataframe` looks for columns named
`"Request Throughput (req/s)"`, `"Total Input Tokens"`, ... while the
dataframe's columns are `"Request_Throughput_req_s"`,
`"Total_Input_Tokens"`, ..., so the `col in df.columns` guards all fail and
no formatting is ever applied: the displayed frame equals the raw frame,
the request-throughput cell shows the raw value `5.5` rather than `"5.50"`,
and the token count shows `16000` without the `"16,000"` grouping that the
(never-reached) formatter would produce. -/
theorem claim3_display_formatting_noop :
    format_dataframe (frameOfRuns [sampleRun]) = frameOfRuns [sampleRun] ∧
    (main sampleFs writeOk ⟨"bench.log", none, false, false⟩).screenFrame =
      some (frameOfRuns [sampleRun]) ∧
    (rowOfRun sampleRun).getD 9 Cell.nan = Cell.dec ⟨55, 1⟩ ∧
    formatFixed2 ⟨55, 1⟩ = "5.50" ∧
    Cell.dec ⟨55, 1⟩ ≠ Cell.str "5.50" ∧
    (rowOfRun sampleRun).getD 7 Cell.nan = Cell.nat 16000 ∧
    groupThousands 16000 = "16,000" ∧
    numericColsFmt.all (fun c => recordCols.contains c) = false ∧
    integerColsFmt.all (fun c => recordCols.contains c) = false := by decide

/-- C4 (counterexample): a segment can match the header, lack the
results-block marker, and still raise: when a dataset-statistics capture
consists only of a comma, the stripped string is empty and `int('')`
raises `ValueError`, aborting the whole parse — contradicting "a segment
failing either condition contributes zero records and raises no error". -/
theorem claim4_counterexample :
    ((segmentsOf badLog.data).length = 1 ∧
      ∀ seg ∈ segmentsOf badLog.data,
        (searchHeader seg).isSome = true ∧ hasMarker seg = false) ∧
    parse_benchmark_log badLog = Except.error pyValueErr := by decide

/-- C4 (amended): whenever the parse completes without error, a record is
emitted for a segment exactly when the segment both matches the header
pattern and contains the results-block marker, so the record count equals
the number of such segments and never exceeds the segment count.  (A
segment can, however, abort the whole parse with a conversion error even
when it lacks the marker.) -/
theorem claim4_records_iff_header_and_marker (content : String)
    (rs : List BenchmarkRun)
    (hp : parse_benchmark_log content = Except.ok rs) :
    rs.length = (segmentsOf content.data).countP
        (fun seg => (searchHeader seg).isSome && hasMarker seg) ∧
      rs.length ≤ (segmentsOf content.data).length :=
  parseSegs_count hp

/-- C4 (witness). -/
theorem claim4_witness :
    ([sampleRun].length = (segmentsOf sampleLog.data).countP
        (fun seg => (searchHeader seg).isSome && hasMarker seg) ∧
      [sampleRun].length ≤ (segmentsOf sampleLog.data).length) :=
  claim4_records_iff_header_and_marker sampleLog [sampleRun] (by decide)

/-- C5: every emitted record's optional numeric fields are extracted
independently from the segment; each equals the converted capture of its
pattern or is `None` exactly when the pattern is absent (never zero), the
`int` conversions see the capture with thousands commas stripped, and the
`float` conversions yield the exact decimal value written in the text. -/
theorem claim5_optional_fields_exact (content : String)
    (rs : List BenchmarkRun) (r : BenchmarkRun)
    (hp : parse_benchmark_log content = Except.ok rs) (hr : r ∈ rs) :
    (∃ seg, seg ∈ segmentsOf content.data ∧
        parseRun seg = Except.ok (some r) ∧ FieldsExact r seg) ∧
      (∀ cap n, intOfCap cap = some n → n = natFromDigits (stripCommas cap)) ∧
      (∀ cap d, floatOfCap cap = some d →
        d.toQ = litValQ (splitAtDot (stripCommas cap)).1
          ((splitAtDot (stripCommas cap)).2.getD [])) := by
  refine ⟨?_, fun cap n hcn => intOfCap_val hcn,
    fun cap d hcd => floatOfCap_exact hcd⟩
  unfold parse_benchmark_log at hp
  obtain ⟨seg, h1, h2⟩ := parseSegs_mem hp hr
  exact ⟨seg, h1, h2, parseRun_fieldsExact h2⟩

/-- C5 (witness). -/
theorem claim5_witness :
    (∃ seg, seg ∈ segmentsOf sampleLog.data ∧
        parseRun seg = Except.ok (some sampleRun) ∧ FieldsExact sampleRun seg) ∧
      (∀ cap n, intOfCap cap = some n → n = natFromDigits (stripCommas cap)) ∧
      (∀ cap d, floatOfCap cap = some d →
        d.toQ = litValQ (splitAtDot (stripCommas cap)).1
          ((splitAtDot (stripCommas cap)).2.getD [])) :=
  claim5_optional_fields_exact sampleLog [sampleRun] sampleRun
    (by decide) (by decide)

/-- C6: every CSV file the reporter produces holds the raw, unformatted
frame of all parsed records, and re-reading each written line restores
every cell value exactly — the display-only rounding and grouping never
reach the CSV. -/
theorem claim6_csv_roundtrip (fs : String → ReadResult)
    (w : String → Option String) (args : Args)
    (text : String) (results : List BenchmarkRun) (p : String) (fr : Frame)
    (h : fs args.logfile = ReadResult.content text)
    (hp : parse_benchmark_log text = Except.ok results)
    (hcsv : (main fs w args).csvFile = some (p, fr)) :
    fr = frameOfRuns results ∧
      ∀ row ∈ fr.rows, readCsvRow (row.map csvCell) = some row := by
  by_cases hv0 : args.no_screen = true ∧ args.csv = none
  · rw [main_config_err hv0.1 hv0.2] at hcsv
    simp at hcsv
  · have hv : args.no_screen = true → args.csv ≠ none := fun hn hc => hv0 ⟨hn, hc⟩
    cases results with
    | nil =>
      rw [main_noResults hv h hp] at hcsv
      simp at hcsv
    | cons r0 t0 =>
      have hmem : ∀ r ∈ (r0 :: t0), RunNormal r := by
        intro r hr
        unfold parse_benchmark_log at hp
        obtain ⟨seg, -, hseg⟩ := parseSegs_mem hp hr
        exact parseRun_normal hseg
      by_cases hcp : args.compact = true
      · rw [main_ok_compact hv hcp h hp (by simp)] at hcsv
        simp at hcsv
      · have hcf : args.compact = false := by
          cases hb : args.compact
          · rfl
          · exact absurd hb hcp
        rw [main_ok_full hv hcf h hp (by simp)] at hcsv
        have hfr : fr = frameOfRuns (r0 :: t0) := by
          cases hca : args.csv with
          | none =>
            rw [hca] at hcsv
            simp [csvStage] at hcsv
          | some q =>
            rw [hca] at hcsv
            cases hwq : w q with
            | some e =>
              simp [csvStage, hwq] at hcsv
            | none =>
              simp [csvStage, hwq] at hcsv
              exact hcsv.2.symm
        refine ⟨hfr, ?_⟩
        intro row hrow
        rw [hfr] at hrow
        obtain ⟨r1, hr1, hrow_eq⟩ := List.mem_map.mp hrow
        rw [← hrow_eq]
        exact readCsvRow_rt (hmem r1 hr1)

/-- C6 (witness). -/
theorem claim6_witness :
    frameOfRuns [sampleRun] = frameOfRuns [sampleRun] ∧
      ∀ row ∈ (frameOfRuns [sampleRun]).rows,
        readCsvRow (row.map csvCell) = some row :=
  claim6_csv_roundtrip sampleFs writeOk
    ⟨"bench.log", some "results.csv", false, false⟩
    sampleLog [sampleRun] "results.csv" (frameOfRuns [sampleRun])
    rfl (by decide) (by decide)

/-- C7 (counterexample): an existing but unreadable log file (a read that
raises something other than `FileNotFoundError`, e.g. a permission error)
is reported with the generic parse-error message, not with the
file-not-found message — so "an unreadable log file is reported as a
file-not-found condition" fails. -/
theorem claim7_counterexample :
    main (fun _ => ReadResult.readErr "Permission denied") writeOk
        ⟨"bench.log", none, false, false⟩ =
      ⟨1, [parseErrMsg "Permission denied"], none, none, true⟩ ∧
    parseErrMsg "Permission denied" ≠ fileNotFoundMsg "bench.log" := by decide

/-- C7 (amended): the program distinguishes three terminal failure
conditions, each exiting non-zero with one message on stderr: a missing
log file (open raises `FileNotFoundError`) gives the file-not-found
report; any other read or parse failure gives the generic parse-error
report; a readable file with zero valid segments gives the
no-results-found report.  The three reports are pairwise distinct for all
file names and exception texts.  (An existing-but-unreadable file falls
under the generic parse-error condition, not file-not-found.) -/
theorem claim7_failure_reports (fs : String → ReadResult)
    (w : String → Option String) (args : Args)
    (m text e f g : String)
    (hv : args.no_screen = true → args.csv ≠ none) :
    (fs args.logfile = ReadResult.notFound →
      main fs w args = ⟨1, [fileNotFoundMsg args.logfile], none, none, true⟩) ∧
    (fs args.logfile = ReadResult.readErr m →
      main fs w args = ⟨1, [parseErrMsg m], none, none, true⟩) ∧
    (fs args.logfile = ReadResult.content text →
      parse_benchmark_log text = Except.error e →
      main fs w args = ⟨1, [parseErrMsg e], none, none, true⟩) ∧
    (fs args.logfile = ReadResult.content text →
      parse_benchmark_log text = Except.ok [] →
      main fs w args = ⟨1, [noResultsMsg], none, none, true⟩) ∧
    fileNotFoundMsg f ≠ parseErrMsg g ∧
    fileNotFoundMsg f ≠ noResultsMsg ∧
    parseErrMsg g ≠ noResultsMsg :=
  ⟨fun h => main_notFound hv h,
   fun h => main_readErr hv h,
   fun h hp => main_parseErr hv h hp,
   fun h hp => main_noResults hv h hp,
   fileNotFoundMsg_ne_parseErrMsg f g,
   fileNotFoundMsg_ne_noResultsMsg f,
   parseErrMsg_ne_noResultsMsg g⟩

/-- C7 (witness). -/
theorem claim7_witness :
    ((fun _ => ReadResult.notFound : String → ReadResult) "missing.log" =
        ReadResult.notFound →
      main (fun _ => ReadResult.notFound) writeOk
          ⟨"missing.log", none, false, false⟩ =
        ⟨1, [fileNotFoundMsg "missing.log"], none, none, true⟩) ∧
    ((fun _ => ReadResult.notFound : String → ReadResult) "missing.log" =
        ReadResult.readErr "Permission denied" →
      main (fun _ => ReadResult.notFound) writeOk
          ⟨"missing.log", none, false, false⟩ =
        ⟨1, [parseErrMsg "Permission denied"], none, none, true⟩) ∧
    ((fun _ => ReadResult.notFound : String → ReadResult) "missing.log" =
        ReadResult.content sampleLog →
      parse_benchmark_log sampleLog = Except.error pyValueErr →
      main (fun _ => ReadResult.notFound) writeOk
          ⟨"missing.log", none, false, false⟩ =
        ⟨1, [parseErrMsg pyValueErr], none, none, true⟩) ∧
    ((fun _ => ReadResult.notFound : String → ReadResult) "missing.log" =
        ReadResult.content sampleLog →
      parse_benchmark_log sampleLog = Except.ok [] →
      main (fun _ => ReadResult.notFound) writeOk
          ⟨"missing.log", none, false, false⟩ =
        ⟨1, [noResultsMsg], none, none, true⟩) ∧
    fileNotFoundMsg "missing.log" ≠ parseErrMsg "Permission denied" ∧
    fileNotFoundMsg "missing.log" ≠ noResultsMsg ∧
    parseErrMsg "Permission denied" ≠ noResultsMsg :=
  claim7_failure_reports (fun _ => ReadResult.notFound) writeOk
    ⟨"missing.log", none, false, false⟩ "Permission denied" sampleLog
    pyValueErr "missing.log" "Permission denied" (by decide)

/-- C8: `--no-screen` without `--csv` is rejected by the argument
validation before any I/O: for every file system whatsoever the process
exits non-zero (status 2) with the usage error, and the log file is never
opened. -/
theorem claim8_no_screen_requires_csv (fs : String → ReadResult)
    (w : String → Option String) (args : Args)
    (h1 : args.no_screen = true) (h2 : args.csv = none) :
    main fs w args = ⟨2, [usageErr], none, none, false⟩ ∧
      (main fs w args).exitCode ≠ 0 ∧ (main fs w args).openedLog = false := by
  have h : main fs w args = ⟨2, [usageErr], none, none, false⟩ :=
    main_config_err h1 h2
  refine ⟨h, ?_, ?_⟩
  · rw [h]
    decide
  · rw [h]

/-- C8 (witness): the log file exists and is readable, yet the run exits
with the configuration error without opening it. -/
theorem claim8_witness :
    main sampleFs writeOk ⟨"bench.log", none, false, true⟩ =
        ⟨2, [usageErr], none, none, false⟩ ∧
      (main sampleFs writeOk ⟨"bench.log", none, false, true⟩).exitCode ≠ 0 ∧
      (main sampleFs writeOk ⟨"bench.log", none, false, true⟩).openedLog =
        false :=
  claim8_no_screen_requires_csv sampleFs writeOk
    ⟨"bench.log", none, false, true⟩ rfl rfl

/-- C9: driven by any outcome sequence containing a failure, the port
waiter's trace is exactly (attempt, sleep) repeated once per leading
successful attempt, ending at the first failed attempt; the sleep count
equals the number of successful attempts; refused, timed-out and
unreachable outcomes are all failures (`connect_ex` result `≠ 0`); and
when the first attempt fails the trace is the single failed attempt — the
process exits immediately without ever sleeping. -/
theorem claim9_port_waiter (outs : List ConnectOutcome)
    (hfail : ∃ o ∈ outs, is_port_open o = false) :
    wait_while_port_open outs =
      (List.replicate (leadingOpen outs)
        [WaitEvent.connAttempt true, WaitEvent.sleepInterval]).flatten ++
        [WaitEvent.connAttempt false] ∧
    (wait_while_port_open outs).count WaitEvent.sleepInterval =
      leadingOpen outs ∧
    (∀ o, is_port_open o = false ↔ o ≠ ConnectOutcome.success) ∧
    (∀ o t, outs = o :: t → is_port_open o = false →
      wait_while_port_open outs = [WaitEvent.connAttempt false]) := by
  have htr := wait_trace_eq hfail
  refine ⟨htr, ?_, ?_, ?_⟩
  · rw [htr, List.count_append, count_sleep_join]
    rfl
  · intro o
    cases o <;> decide
  · intro o t heq hfo
    subst heq
    simp [wait_while_port_open, hfo]

/-- C9 (witness). -/
theorem claim9_witness :
    wait_while_port_open [ConnectOutcome.success, ConnectOutcome.refused] =
      (List.replicate
        (leadingOpen [ConnectOutcome.success, ConnectOutcome.refused])
        [WaitEvent.connAttempt true, WaitEvent.sleepInterval]).flatten ++
        [WaitEvent.connAttempt false] ∧
    (wait_while_port_open
        [ConnectOutcome.success, ConnectOutcome.refused]).count
      WaitEvent.sleepInterval =
      leadingOpen [ConnectOutcome.success, ConnectOutcome.refused] ∧
    (∀ o, is_port_open o = false ↔ o ≠ ConnectOutcome.success) ∧
    (∀ o t,
      [ConnectOutcome.success, ConnectOutcome.refused] = o :: t →
      is_port_open o = false →
      wait_while_port_open [ConnectOutcome.success, ConnectOutcome.refused] =
        [WaitEvent.connAttempt false]) :=
  claim9_port_waiter [ConnectOutcome.success, ConnectOutcome.refused]
    ⟨ConnectOutcome.refused, by decide, by decide⟩

/-- C10: the configuration error (`--no-screen` without `--csv`) exits via
the argument parser's error path with status 2, while every runtime
failure — file not found, a read or parse failure, no results found, and a
failing CSV write (`df.to_csv` raising inside its `try`) — exits with
status 1: the exit code alone separates configuration errors from runtime
errors. -/
theorem claim10_exit_codes (fs : String → ReadResult)
    (w : String → Option String) (args : Args)
    (m text e we p : String) (results : List BenchmarkRun) :
    (args.no_screen = true → args.csv = none →
      (main fs w args).exitCode = 2) ∧
    ((args.no_screen = true → args.csv ≠ none) →
      (fs args.logfile = ReadResult.notFound →
        (main fs w args).exitCode = 1) ∧
      (fs args.logfile = ReadResult.readErr m →
        (main fs w args).exitCode = 1) ∧
      (fs args.logfile = ReadResult.content text →
        parse_benchmark_log text = Except.error e →
        (main fs w args).exitCode = 1) ∧
      (fs args.logfile = ReadResult.content text →
        parse_benchmark_log text = Except.ok [] →
        (main fs w args).exitCode = 1) ∧
      (args.compact = false → args.csv = some p →
        fs args.logfile = ReadResult.content text →
        parse_benchmark_log text = Except.ok results → results ≠ [] →
        w p = some we →
        (main fs w args).exitCode = 1 ∧
          (main fs w args).errLines = [csvErrMsg we])) := by
  constructor
  · intro h1 h2
    rw [main_config_err h1 h2]
  · intro hv
    refine ⟨fun h => by rw [main_notFound hv h],
      fun h => by rw [main_readErr hv h],
      fun h hp => by rw [main_parseErr hv h hp],
      fun h hp => by rw [main_noResults hv h hp],
      ?_⟩
    intro hcf hcsv h hp hne hw
    rw [main_ok_full hv hcf h hp hne, hcsv]
    simp [csvStage, hw]

/-- C10 (witness): a run whose CSV write raises (`No space left on
device`) exits 1 with the CSV-save report, while the same theorem gives
status 2 for the configuration error. -/
theorem claim10_witness :
    ((⟨"bench.log", some "results.csv", false, false⟩ : Args).no_screen = true →
      (⟨"bench.log", some "results.csv", false, false⟩ : Args).csv = none →
      (main sampleFs (fun _ => some "No space left on device")
        ⟨"bench.log", some "results.csv", false, false⟩).exitCode = 2) ∧
    (((⟨"bench.log", some "results.csv", false, false⟩ : Args).no_screen = true →
        (⟨"bench.log", some "results.csv", false, false⟩ : Args).csv ≠ none) →
      (sampleFs "bench.log" = ReadResult.notFound →
        (main sampleFs (fun _ => some "No space left on device")
          ⟨"bench.log", some "results.csv", false, false⟩).exitCode = 1) ∧
      (sampleFs "bench.log" = ReadResult.readErr "boom" →
        (main sampleFs (fun _ => some "No space left on device")
          ⟨"bench.log", some "results.csv", false, false⟩).exitCode = 1) ∧
      (sampleFs "bench.log" = ReadResult.content sampleLog →
        parse_benchmark_log sampleLog = Except.error pyValueErr →
        (main sampleFs (fun _ => some "No space left on device")
          ⟨"bench.log", some "results.csv", false, false⟩).exitCode = 1) ∧
      (sampleFs "bench.log" = ReadResult.content sampleLog →
        parse_benchmark_log sampleLog = Except.ok [] →
        (main sampleFs (fun _ => some "No space left on device")
          ⟨"bench.log", some "results.csv", false, false⟩).exitCode = 1) ∧
      ((⟨"bench.log", some "results.csv", false, false⟩ : Args).compact = false →
        (⟨"bench.log", some "results.csv", false, false⟩ : Args).csv =
          some "results.csv" →
        sampleFs "bench.log" = ReadResult.content sampleLog →
        parse_benchmark_log sampleLog = Except.ok [sampleRun] →
        [sampleRun] ≠ [] →
        (fun _ => some "No space left on device" :
          String → Option String) "results.csv" =
          some "No space left on device" →
        (main sampleFs (fun _ => some "No space left on device")
            ⟨"bench.log", some "results.csv", false, false⟩).exitCode = 1 ∧
          (main sampleFs (fun _ => some "No space left on device")
            ⟨"bench.log", some "results.csv", false, false⟩).errLines =
            [csvErrMsg "No space left on device"])) :=
  claim10_exit_codes sampleFs (fun _ => some "No space left on device")
    ⟨"bench.log", some "results.csv", false, false⟩ "boom" sampleLog
    pyValueErr "No space left on device" "results.csv" [sampleRun]

end SGLang